import Mathlib

/-!
Verification of the lox-rust tree-walking interpreter core.

This file gives a shallow embedding, in Lean, of the scanner, parser and
evaluator of the repository, and proves (or refutes) the frozen claims
about them.  Machine floats (`f64`) are modelled as exact fractions
(the `F64` structure below); the claims under study only exercise small
integer arithmetic and the `x ≠ 0.0` truthiness test, where the two
agree.  Rust's interior mutability
(`RefCell` state threaded through a shared `&self`) is modelled by
explicit state passing: every evaluator function returns the state it
leaves behind, also when it returns an error, exactly as the Rust state
survives an `Err` return.  Recursion in the evaluator and parser is made
total with an explicit fuel parameter; running out of fuel surfaces as a
distinguished error that no theorem below ever hits on its concrete
inputs.
-/

/-- Model of Rust's `f64`: an exact fraction `num / den`.  Every number
the claims exercise is a small integer (`den = 1`), and the scanner only
produces positive power-of-ten denominators, so exact fraction
arithmetic agrees with `f64` on everything proved below.  (IEEE rounding,
infinities and NaN are not modelled: a zero denominator can only arise
from dividing by zero, which no claim does.)  Comparisons assume the
positive denominators the scanner produces. -/
structure F64 where
  num : Int
  den : Int
deriving DecidableEq

instance (n : Nat) : OfNat F64 n := ⟨⟨n, 1⟩⟩

/-- Value equality of fractions, as `f64` equality compares values. -/
def F64.beq (a b : F64) : Bool := a.num * b.den == b.num * a.den

def F64.lt (a b : F64) : Bool := decide (a.num * b.den < b.num * a.den)

def F64.le (a b : F64) : Bool := decide (a.num * b.den ≤ b.num * a.den)

def F64.add (a b : F64) : F64 := ⟨a.num * b.den + b.num * a.den, a.den * b.den⟩

def F64.sub (a b : F64) : F64 := ⟨a.num * b.den - b.num * a.den, a.den * b.den⟩

def F64.mul (a b : F64) : F64 := ⟨a.num * b.num, a.den * b.den⟩

def F64.div (a b : F64) : F64 := ⟨a.num * b.den, a.den * b.num⟩

def F64.neg (a : F64) : F64 := ⟨-a.num, a.den⟩

/-- Modelled from the spec: the token kind used by `scanner.rs` and
`parser.rs` (a tagged variant with payload-carrying literals; the
`token.rs` file in the repository is an older iteration that keeps a
separate lexeme field instead, with different constructor names). -/
inductive TokenKind where
  | LeftParen
  | RightParen
  | LeftBrace
  | RightBrace
  | Comma
  | Dot
  | Minus
  | Plus
  | Semicolon
  | Slash
  | Star
  | Bang
  | BangEqual
  | Equal
  | EqualEqual
  | Greater
  | GreaterEqual
  | Less
  | LessEqual
  | Identifier (value : String)
  | String (value : String)
  | Number (value : F64)
  | And
  | Class
  | Else
  | False
  | Fun
  | For
  | If
  | Nil
  | Or
  | Print
  | Return
  | Super
  | This
  | True
  | Var
  | While
  | Eof
deriving DecidableEq

/-- Display form of a token kind, after the `Display` impl in `token.rs`
(the literal kinds print placeholders there). -/
def token_kind_display : TokenKind → String
  | .LeftParen => "("
  | .RightParen => ")"
  | .LeftBrace => "\x7b"
  | .RightBrace => "\x7d"
  | .Comma => ","
  | .Dot => "."
  | .Minus => "-"
  | .Plus => "+"
  | .Semicolon => ";"
  | .Slash => "/"
  | .Star => "*"
  | .Bang => "!"
  | .BangEqual => "!="
  | .Equal => "="
  | .EqualEqual => "=="
  | .Greater => ">"
  | .GreaterEqual => ">="
  | .Less => "<"
  | .LessEqual => "<="
  | .Identifier _ => "<IDENTIFIER>"
  | .String _ => "<STRING>"
  | .Number _ => "<NUMBER>"
  | .And => "and"
  | .Class => "class"
  | .Else => "else"
  | .False => "false"
  | .Fun => "fun"
  | .For => "for"
  | .If => "if"
  | .Nil => "nil"
  | .Or => "or"
  | .Print => "print"
  | .Return => "return"
  | .Super => "super"
  | .This => "this"
  | .True => "true"
  | .Var => "var"
  | .While => "while"
  | .Eof => "<EOF>"

/-- Debug form of a token kind, after the derived `Debug` impl used in
the parser's error messages (payloads of literal kinds are elided; the
claims only exercise payload-free kinds there). -/
def token_kind_debug : TokenKind → String
  | .LeftParen => "LeftParen"
  | .RightParen => "RightParen"
  | .LeftBrace => "LeftBrace"
  | .RightBrace => "RightBrace"
  | .Comma => "Comma"
  | .Dot => "Dot"
  | .Minus => "Minus"
  | .Plus => "Plus"
  | .Semicolon => "Semicolon"
  | .Slash => "Slash"
  | .Star => "Star"
  | .Bang => "Bang"
  | .BangEqual => "BangEqual"
  | .Equal => "Equal"
  | .EqualEqual => "EqualEqual"
  | .Greater => "Greater"
  | .GreaterEqual => "GreaterEqual"
  | .Less => "Less"
  | .LessEqual => "LessEqual"
  | .Identifier v => "Identifier(\"" ++ v ++ "\")"
  | .String v => "String(\"" ++ v ++ "\")"
  | .Number _ => "Number"
  | .And => "And"
  | .Class => "Class"
  | .Else => "Else"
  | .False => "False"
  | .Fun => "Fun"
  | .For => "For"
  | .If => "If"
  | .Nil => "Nil"
  | .Or => "Or"
  | .Print => "Print"
  | .Return => "Return"
  | .Super => "Super"
  | .This => "This"
  | .True => "True"
  | .Var => "Var"
  | .While => "While"
  | .Eof => "Eof"

/-- Modelled from the spec: a token is a pair of a kind and a 1-indexed
source line, as produced by `Scanner::scan_tokens` in `scanner.rs`. -/
structure Token where
  kind : TokenKind
  line : Nat
deriving DecidableEq

/-- Literal values, after `Literal` in `expr.rs`. -/
inductive Literal where
  | Number (x : F64)
  | String (x : String)
  | Bool (x : Bool)
  | Nil
deriving DecidableEq

/-- Expressions, after `Expr` in `expr.rs` (the struct payloads of the
Rust variants are inlined as constructor fields). -/
inductive Expr where
  | Assign (name : String) (value : Expr)
  | Binary (left : Expr) (operator : TokenKind) (right : Expr)
  | Call (callee : Expr) (arguments : List Expr)
  | Grouping (expression : Expr)
  | Literal (literal : Literal)
  | Logical (left : Expr) (operator : TokenKind) (right : Expr)
  | Variable (name : String)
  | Unary (operator : TokenKind) (right : Expr)

/-- Statements, after `Stmt` in `stmt.rs`. -/
inductive Stmt where
  | Block (statements : List Stmt)
  | Expression (expression : Expr)
  | Function (name : String) (params : List String) (body : List Stmt)
  | If (condition : Expr) (then_branch : Stmt) (else_branch : Option Stmt)
  | Print (expression : Expr)
  | Return (value : Expr)
  | Var (name : String) (initializer : Option Expr)
  | While (condition : Expr) (body : Stmt)

/-- Modelled from the spec: the persistent environment used by
`interpreter.rs` (a chain of scopes mapping identifiers to arena
indices; lookups walk outward; cloning shares arena indices).  The
`env.rs` file in the repository is an older iteration whose methods take
the arena as an argument and mutate in place; the interpreter instead
calls `enclose`, `insert` and `get` on value-type snapshots.  The head
of `frames` is the innermost scope. -/
structure Environment where
  frames : List (List (String × Nat))
deriving DecidableEq

/-- Scope-chain lookup: try the innermost frame first, then walk outward. -/
def lookup_frames : List (List (String × Nat)) → String → Option Nat
  | [], _ => none
  | f :: rest, name =>
    match f.lookup name with
    | some index => some index
    | none => lookup_frames rest name

/-- The empty environment (`Environment::default`): one empty scope, no
enclosing scope. -/
def Environment.empty : Environment := ⟨[[]]⟩

/-- Push a fresh empty scope that encloses the given environment. -/
def Environment.enclose (env : Environment) : Environment := ⟨[] :: env.frames⟩

/-- Bind `name` to arena index `index` in the innermost scope, returning
the extended environment (persistent: the original is unchanged). -/
def Environment.insert (env : Environment) (name : String) (index : Nat) : Environment :=
  match env.frames with
  | [] => ⟨[[(name, index)]]⟩
  | f :: rest => ⟨((name, index) :: f) :: rest⟩

/-- Resolve `name` through the scope chain to an arena index. -/
def Environment.get (env : Environment) (name : String) : Option Nat :=
  lookup_frames env.frames name

/-- Runtime values, after `RuntimeValue` in `interpreter.rs`.  A callable
pairs the function's AST with its captured environment. -/
inductive RuntimeValue where
  | Bool (x : Bool)
  | Callable (ast : Stmt) (closure : Environment)
  | Nil
  | Number (x : F64)
  | String (x : String)

mutual

/-- Structural equality of expressions, after the derived `PartialEq`. -/
def expr_beq : Expr → Expr → Bool
  | .Assign n1 v1, .Assign n2 v2 => n1 == n2 && expr_beq v1 v2
  | .Binary l1 o1 r1, .Binary l2 o2 r2 => expr_beq l1 l2 && decide (o1 = o2) && expr_beq r1 r2
  | .Call c1 a1, .Call c2 a2 => expr_beq c1 c2 && expr_list_beq a1 a2
  | .Grouping e1, .Grouping e2 => expr_beq e1 e2
  | .Literal l1, .Literal l2 => decide (l1 = l2)
  | .Logical l1 o1 r1, .Logical l2 o2 r2 => expr_beq l1 l2 && decide (o1 = o2) && expr_beq r1 r2
  | .Variable n1, .Variable n2 => n1 == n2
  | .Unary o1 r1, .Unary o2 r2 => decide (o1 = o2) && expr_beq r1 r2
  | _, _ => false

def expr_list_beq : List Expr → List Expr → Bool
  | [], [] => true
  | e1 :: r1, e2 :: r2 => expr_beq e1 e2 && expr_list_beq r1 r2
  | _, _ => false

def expr_opt_beq : Option Expr → Option Expr → Bool
  | none, none => true
  | some e1, some e2 => expr_beq e1 e2
  | _, _ => false

/-- Structural equality of statements, after the derived `PartialEq`. -/
def stmt_beq : Stmt → Stmt → Bool
  | .Block s1, .Block s2 => stmt_list_beq s1 s2
  | .Expression e1, .Expression e2 => expr_beq e1 e2
  | .Function n1 p1 b1, .Function n2 p2 b2 => n1 == n2 && p1 == p2 && stmt_list_beq b1 b2
  | .If c1 t1 e1, .If c2 t2 e2 => expr_beq c1 c2 && stmt_beq t1 t2 && stmt_opt_beq e1 e2
  | .Print e1, .Print e2 => expr_beq e1 e2
  | .Return e1, .Return e2 => expr_beq e1 e2
  | .Var n1 i1, .Var n2 i2 => n1 == n2 && expr_opt_beq i1 i2
  | .While c1 b1, .While c2 b2 => expr_beq c1 c2 && stmt_beq b1 b2
  | _, _ => false

def stmt_list_beq : List Stmt → List Stmt → Bool
  | [], [] => true
  | s1 :: r1, s2 :: r2 => stmt_beq s1 s2 && stmt_list_beq r1 r2
  | _, _ => false

def stmt_opt_beq : Option Stmt → Option Stmt → Bool
  | none, none => true
  | some s1, some s2 => stmt_beq s1 s2
  | _, _ => false

end

/-- Runtime-value equality, after the derived `PartialEq` on
`RuntimeValue` (the Rust `HashMap` scope equality is modelled as
association-list equality; no claim exercises equality of callables). -/
def value_beq : RuntimeValue → RuntimeValue → Bool
  | .Bool a, .Bool b => a == b
  | .Callable a1 e1, .Callable a2 e2 => stmt_beq a1 a2 && decide (e1 = e2)
  | .Nil, .Nil => true
  | .Number a, .Number b => F64.beq a b
  | .String a, .String b => a == b
  | _, _ => false

/-- Display of a number, after Rust's `{}` formatting of `f64`: whole
values print with no fractional part.  (Non-integer rationals print in
`num/den` form here, unlike the decimal form of `f64`; no claim prints a
non-integer.) -/
def display_number (q : F64) : String :=
  if q.den = 1 then toString q.num else toString q.num ++ "/" ++ toString q.den

/-- Display of a runtime value, after the `fmt::Display` impl in
`interpreter.rs`.  A callable whose AST is not a `Function` makes the
Rust impl return a format error; that arm is unreachable. -/
def display : RuntimeValue → String
  | .Bool x => if x then "true" else "false"
  | .Callable ast _ =>
    match ast with
    | .Function name _ _ => "<fn " ++ name ++ ">"
    | _ => "<fmt error>"
  | .Nil => "nil"
  | .Number x => display_number x
  | .String x => x

/-- Truthiness, after `is_truthy` in `interpreter.rs` (zero is falsy). -/
def is_truthy : RuntimeValue → Bool
  | .Bool x => x
  | .Callable _ _ => true
  | .Nil => false
  | .Number x => !(F64.beq x 0)
  | .String _ => true

/-- The evaluator's failure channel: an ordinary runtime error message,
a `ReturnValueError` carrying a returned value (the non-local return
signal of `interpreter.rs`), or fuel exhaustion (an artifact of the
embedding, never hit on the concrete inputs below). -/
inductive RTError where
  | error (msg : String)
  | ret (value : RuntimeValue)
  | fuel

/-- Result of an evaluator step; the state is returned separately on
both success and failure. -/
inductive Outcome (α : Type) where
  | ok (value : α)
  | err (e : RTError)

/-- The interpreter state: current environment, value arena and captured
output, after the three `RefCell` fields of `Interpreter`.  The arena is
a list; `generational_arena` with no removals hands out consecutive
indices, so insertion is appending and the index is the old length. -/
structure InterpState where
  env : Environment
  arena : List RuntimeValue
  stdout : String

/-- The state of `Interpreter::default()`. -/
def initial_state : InterpState := ⟨Environment.empty, [], ""⟩

/-- After `Interpreter::define_in_env`: allocate an arena slot for
`value` and bind `name` to its index in `env`, returning the new state,
the extended environment and the fresh index. -/
def define_in_env (s : InterpState) (env : Environment) (name : String)
    (value : RuntimeValue) : InterpState × Environment × Nat :=
  let index := s.arena.length
  ({ s with arena := s.arena ++ [value] }, env.insert name index, index)

/-- After `Interpreter::update_var`: overwrite the arena slot at
`index`. -/
def update_var (s : InterpState) (index : Nat) (value : RuntimeValue) :
    InterpState × Outcome Unit :=
  if index < s.arena.length then
    ({ s with arena := s.arena.set index value }, .ok ())
  else
    (s, .err (.error ("Variable #" ++ toString index ++ " is unexpectedly not allocated a value.")))

/-- After `Interpreter::lookup_in_env`: resolve `name` through `env` and
read the arena slot. -/
def lookup_in_env (s : InterpState) (env : Environment) (name : String) :
    Outcome RuntimeValue :=
  match env.get name with
  | none => .err (.error ("Undefined variable " ++ name ++ "."))
  | some index =>
    match s.arena[index]? with
    | some value => .ok value
    | none => .err (.error ("Variable " ++ name ++ " was unexpectedly deallocated."))

/-- The parameter-binding loop of `Interpreter::invoke_function`: define
each parameter to its argument value in turn.  Only the arena part of
the state changes; the state's `env` field is untouched, so the caller's
environment is still current afterwards, as in the Rust code. -/
def bind_params : InterpState → Environment → List (String × RuntimeValue) →
    InterpState × Environment
  | s, env, [] => (s, env)
  | s, env, (param, arg) :: rest =>
    let r := define_in_env s env param arg
    bind_params r.1 r.2.1 rest

/-- After `Interpreter::visit_expr_literal`. -/
def literal_value : Literal → RuntimeValue
  | .Number x => .Number x
  | .String x => .String x
  | .Bool x => .Bool x
  | .Nil => .Nil

/-- The operator dispatch of `Interpreter::visit_expr_unary`, applied to
the already-evaluated operand.  Note the Rust `Bang` arm returns the
truthiness of the operand without negating it. -/
def unary_result (operator : TokenKind) (right_val : RuntimeValue) : Outcome RuntimeValue :=
  match operator with
  | .Bang => .ok (.Bool (is_truthy right_val))
  | .Minus =>
    match right_val with
    | .Number x => .ok (.Number (F64.neg x))
    | _ => .err (.error ("Unexpected operand after -: " ++ display right_val ++ "."))
  | _ => .err (.error ("Unexpected unary operator: " ++ token_kind_display operator ++ "."))

/-- The operator dispatch of `Interpreter::visit_expr_binary`, applied
to the already-evaluated operands.  The left operand's type error is
reported before the right one's, as in the Rust `unwrap_number` calls.
Division is exact rational division (the Rust `f64` division by zero
yields an infinity instead; no claim divides). -/
def binary_result (operator : TokenKind) (left_val right_val : RuntimeValue) :
    Outcome RuntimeValue :=
  match operator with
  | .Greater =>
    match left_val, right_val with
    | .Number l, .Number r => .ok (.Bool (F64.lt r l))
    | .Number _, _ => .err (.error ("Unexpected operand after >: " ++ display right_val))
    | _, _ => .err (.error ("Unexpected operand before >: " ++ display left_val))
  | .GreaterEqual =>
    match left_val, right_val with
    | .Number l, .Number r => .ok (.Bool (F64.le r l))
    | .Number _, _ => .err (.error ("Unexpected operand after >=: " ++ display right_val))
    | _, _ => .err (.error ("Unexpected operand before >=: " ++ display left_val))
  | .Less =>
    match left_val, right_val with
    | .Number l, .Number r => .ok (.Bool (F64.lt l r))
    | .Number _, _ => .err (.error ("Unexpected operand after <: " ++ display right_val))
    | _, _ => .err (.error ("Unexpected operand before <: " ++ display left_val))
  | .LessEqual =>
    match left_val, right_val with
    | .Number l, .Number r => .ok (.Bool (F64.le l r))
    | .Number _, _ => .err (.error ("Unexpected operand after <=: " ++ display right_val))
    | _, _ => .err (.error ("Unexpected operand before <=: " ++ display left_val))
  | .BangEqual => .ok (.Bool (!(value_beq left_val right_val)))
  | .EqualEqual => .ok (.Bool (value_beq left_val right_val))
  | .Minus =>
    match left_val, right_val with
    | .Number l, .Number r => .ok (.Number (F64.sub l r))
    | .Number _, _ => .err (.error ("Unexpected operand after -: " ++ display right_val))
    | _, _ => .err (.error ("Unexpected operand before -: " ++ display left_val))
  | .Plus =>
    match left_val, right_val with
    | .Number l, .Number r => .ok (.Number (F64.add l r))
    | .String l, .String r => .ok (.String (l ++ r))
    | _, _ =>
      .err (.error ("Unexpected operands for + (must be a pair of numbers or pair of strings): "
        ++ display left_val ++ ", " ++ display right_val))
  | .Slash =>
    match left_val, right_val with
    | .Number l, .Number r => .ok (.Number (F64.div l r))
    | .Number _, _ => .err (.error ("Unexpected operand after /: " ++ display right_val))
    | _, _ => .err (.error ("Unexpected operand before /: " ++ display left_val))
  | .Star =>
    match left_val, right_val with
    | .Number l, .Number r => .ok (.Number (F64.mul l r))
    | .Number _, _ => .err (.error ("Unexpected operand after *: " ++ display right_val))
    | _, _ => .err (.error ("Unexpected operand before *: " ++ display left_val))
  | _ => .err (.error ("Unexpected binary operator: " ++ token_kind_display operator))

mutual

/-- The expression evaluator, after `ExprVisitor for Interpreter` in
`interpreter.rs`, with the fuel-indexed state-passing discipline
described at the top of the file. -/
def visit_expr : Nat → InterpState → Expr → InterpState × Outcome RuntimeValue
  | 0, s, _ => (s, .err .fuel)
  | n + 1, s, e =>
    match e with
    | .Assign name value =>
      match visit_expr n s value with
      | (s1, .ok evaluated) =>
        match s1.env.get name with
        | none => (s1, .err (.error ("Undefined variable " ++ name ++ ".")))
        | some index =>
          match update_var s1 index evaluated with
          | (s2, .ok _) => (s2, .ok evaluated)
          | (s2, .err er) => (s2, .err er)
      | (s1, .err er) => (s1, .err er)
    | .Binary left operator right =>
      match visit_expr n s left with
      | (s1, .ok left_val) =>
        match visit_expr n s1 right with
        | (s2, .ok right_val) => (s2, binary_result operator left_val right_val)
        | (s2, .err er) => (s2, .err er)
      | (s1, .err er) => (s1, .err er)
    | .Call callee arguments =>
      match visit_expr n s callee with
      | (s1, .ok callee_val) =>
        match visit_args n s1 arguments with
        | (s2, .ok argument_vals) => invoke_function n s2 callee_val argument_vals
        | (s2, .err er) => (s2, .err er)
      | (s1, .err er) => (s1, .err er)
    | .Grouping expression => visit_expr n s expression
    | .Literal lit => (s, .ok (literal_value lit))
    | .Logical left operator right =>
      match visit_expr n s left with
      | (s1, .ok left_val) =>
        match operator with
        | .Or =>
          if is_truthy left_val then (s1, .ok left_val)
          else visit_expr n s1 right
        | .And =>
          if !is_truthy left_val then (s1, .ok left_val)
          else visit_expr n s1 right
        | _ =>
          (s1, .err (.error ("Unexpected logical operator: " ++ token_kind_display operator ++ ".")))
      | (s1, .err er) => (s1, .err er)
    | .Variable name => (s, lookup_in_env s s.env name)
    | .Unary operator right =>
      match visit_expr n s right with
      | (s1, .ok right_val) => (s1, unary_result operator right_val)
      | (s1, .err er) => (s1, .err er)

/-- The left-to-right argument-evaluation loop of
`Interpreter::visit_expr_call`. -/
def visit_args : Nat → InterpState → List Expr → InterpState × Outcome (List RuntimeValue)
  | _, s, [] => (s, .ok [])
  | 0, s, _ :: _ => (s, .err .fuel)
  | n + 1, s, arg :: rest =>
    match visit_expr n s arg with
    | (s1, .ok v) =>
      match visit_args n s1 rest with
      | (s2, .ok vs) => (s2, .ok (v :: vs))
      | (s2, .err er) => (s2, .err er)
    | (s1, .err er) => (s1, .err er)

/-- After `Interpreter::invoke_function`: arity check, parameter
binding in a child of the captured environment, body execution, and the
interception of the `ReturnValueError` unwind.  The prior environment is
restored on normal completion and on a caught return, but not when a
runtime error propagates — exactly the Rust control flow. -/
def invoke_function : Nat → InterpState → RuntimeValue → List RuntimeValue →
    InterpState × Outcome RuntimeValue
  | 0, s, _, _ => (s, .err .fuel)
  | n + 1, s, callee, arguments =>
    match callee with
    | .Callable ast closure =>
      match ast with
      | .Function _ params body =>
        if params.length ≠ arguments.length then
          (s, .err (.error ("Expected " ++ toString params.length ++ " arguments but got "
            ++ toString arguments.length ++ ".")))
        else
          let r := bind_params s closure.enclose (params.zip arguments)
          let old_env := s.env
          match visit_stmts n { r.1 with env := r.2 } body with
          | (s2, .ok _) => ({ s2 with env := old_env }, .ok .Nil)
          | (s2, .err (.ret value)) => ({ s2 with env := old_env }, .ok value)
          | (s2, .err er) => (s2, .err er)
      | _ => (s, .err (.error "Compiler error: invalid function found in callable."))
    | _ => (s, .err (.error "Can only call functions and classes."))

/-- The statement evaluator, after `StmtVisitor for Interpreter` in
`interpreter.rs`. -/
def visit_stmt : Nat → InterpState → Stmt → InterpState × Outcome Unit
  | 0, s, _ => (s, .err .fuel)
  | n + 1, s, stmt =>
    match stmt with
    | .Block statements =>
      let new_env := s.env.enclose
      let old_env := s.env
      match visit_stmts n { s with env := new_env } statements with
      | (s2, .ok _) => ({ s2 with env := old_env }, .ok ())
      | (s2, .err er) => (s2, .err er)
    | .Expression expression =>
      match visit_expr n s expression with
      | (s1, .ok _) => (s1, .ok ())
      | (s1, .err er) => (s1, .err er)
    | .Function name params body =>
      let f := Stmt.Function name params body
      let r := define_in_env s s.env name .Nil
      let callable := RuntimeValue.Callable f r.2.1
      match update_var r.1 r.2.2 callable with
      | (s2, .ok _) => ({ s2 with env := r.2.1 }, .ok ())
      | (s2, .err er) => (s2, .err er)
    | .If condition then_branch else_branch =>
      match visit_expr n s condition with
      | (s1, .ok v) =>
        if is_truthy v then visit_stmt n s1 then_branch
        else
          match else_branch with
          | some unwrapped => visit_stmt n s1 unwrapped
          | none => (s1, .ok ())
      | (s1, .err er) => (s1, .err er)
    | .Print expression =>
      match visit_expr n s expression with
      | (s1, .ok value) => ({ s1 with stdout := s1.stdout ++ display value ++ "\n" }, .ok ())
      | (s1, .err er) => (s1, .err er)
    | .Return value =>
      match visit_expr n s value with
      | (s1, .ok v) => (s1, .err (.ret v))
      | (s1, .err er) => (s1, .err er)
    | .Var name initializer =>
      match
        (match initializer with
          | some expr => visit_expr n s expr
          | none => (s, .ok .Nil)) with
      | (s1, .ok value) =>
        let r := define_in_env s1 s1.env name value
        ({ r.1 with env := r.2.1 }, .ok ())
      | (s1, .err er) => (s1, .err er)
    | .While condition body =>
      match visit_expr n s condition with
      | (s1, .ok v) =>
        if is_truthy v then
          match visit_stmt n s1 body with
          | (s2, .ok _) => visit_stmt n s2 (.While condition body)
          | (s2, .err er) => (s2, .err er)
        else (s1, .ok ())
      | (s1, .err er) => (s1, .err er)

/-- The statement loop shared by `Interpreter::interpret`,
`visit_stmt_block` and `invoke_function`: run each statement in order,
stopping at the first error. -/
def visit_stmts : Nat → InterpState → List Stmt → InterpState × Outcome Unit
  | _, s, [] => (s, .ok ())
  | 0, s, _ :: _ => (s, .err .fuel)
  | n + 1, s, stmt :: rest =>
    match visit_stmt n s stmt with
    | (s1, .ok _) => visit_stmts n s1 rest
    | (s1, .err er) => (s1, .err er)

end

/-- Rendering of the evaluator's failure channel as the error string the
library caller sees (a `ReturnValueError` displays as `<returning v>`,
after its `fmt::Display` impl). -/
def error_message : RTError → String
  | .error msg => msg
  | .ret value => "<returning " ++ display value ++ ">"
  | .fuel => "out of fuel"

/-- After `Interpreter::interpret`: run the statements; on success the
result is the captured stdout, on failure only the error. -/
def interpret (n : Nat) (s : InterpState) (statements : List Stmt) : Except String String :=
  match visit_stmts n s statements with
  | (s1, .ok _) => .ok s1.stdout
  | (_, .err er) => .error (error_message er)

/-- The string-literal loop of `Scanner::parse_string`: consume
characters until a closing quote, bumping the line counter at each
newline.  At end of input the error message uses the *current* (already
bumped) line counter, as in `scanner.rs`. -/
def scan_string : List Char → Nat → Except String (List Char × List Char × Nat)
  | [], line => .error ("end of line while scanning string literal on line " ++ toString line)
  | c :: rest, line =>
    if c = '"' then .ok ([], rest, line)
    else
      let line1 := if c = '\n' then line + 1 else line
      match scan_string rest line1 with
      | .ok (lexeme, rem, line2) => .ok (c :: lexeme, rem, line2)
      | .error e => .error e

/-- Value of a digit string (most significant first). -/
def digits_to_nat (ds : List Char) : Nat :=
  ds.foldl (fun acc c => acc * 10 + (c.toNat - '0'.toNat)) 0

/-- After `Scanner::parse_number`: greedily take digits, then a
fractional part only when a `.` is followed by another digit.  The
lexeme is read as an exact rational (the Rust code parses it as `f64`,
which rounds; the claims never exercise the difference). -/
def scan_number (first : Char) (cs : List Char) : F64 × List Char :=
  let ds := cs.takeWhile (fun ch => ch.isDigit)
  let rest := cs.dropWhile (fun ch => ch.isDigit)
  match rest with
  | '.' :: d :: rest2 =>
    if d.isDigit then
      let fs := (d :: rest2).takeWhile (fun ch => ch.isDigit)
      let rest3 := (d :: rest2).dropWhile (fun ch => ch.isDigit)
      (⟨digits_to_nat (first :: ds) * (10 : Int) ^ fs.length + digits_to_nat fs,
          (10 : Int) ^ fs.length⟩, rest3)
    else (⟨(digits_to_nat (first :: ds) : Int), 1⟩, rest)
  | _ => (⟨(digits_to_nat (first :: ds) : Int), 1⟩, rest)

/-- The reserved-word table of `Scanner::parse_identifer`. -/
def keyword_or_identifier (lexeme : String) : TokenKind :=
  match lexeme with
  | "and" => .And
  | "class" => .Class
  | "else" => .Else
  | "false" => .False
  | "for" => .For
  | "fun" => .Fun
  | "if" => .If
  | "nil" => .Nil
  | "or" => .Or
  | "print" => .Print
  | "return" => .Return
  | "super" => .Super
  | "this" => .This
  | "true" => .True
  | "var" => .Var
  | "while" => .While
  | _ => .Identifier lexeme

/-- Prepend a freshly scanned token to the remaining scan's result. -/
def with_token (kind : TokenKind) (line : Nat) (r : Except String (List Token)) :
    Except String (List Token) :=
  match r with
  | .ok tokens => .ok (⟨kind, line⟩ :: tokens)
  | .error e => .error e

/-- The scanning loop of `Scanner::scan_tokens`/`scan_token`: one pass
with single-character lookahead, skipping whitespace and `//` comments,
bumping the line counter at newlines, and appending `Eof` at the end.
Identifier continuation uses ASCII alphanumerics (the Rust code accepts
Unicode alphanumerics; the claims are ASCII-only). -/
def scan_tokens_aux : Nat → List Char → Nat → Except String (List Token)
  | 0, _, _ => .error "out of fuel"
  | fuel + 1, cs, line =>
    match cs with
    | [] => .ok [⟨.Eof, line⟩]
    | '(' :: rest => with_token .LeftParen line (scan_tokens_aux fuel rest line)
    | ')' :: rest => with_token .RightParen line (scan_tokens_aux fuel rest line)
    | '{' :: rest => with_token .LeftBrace line (scan_tokens_aux fuel rest line)
    | '}' :: rest => with_token .RightBrace line (scan_tokens_aux fuel rest line)
    | ',' :: rest => with_token .Comma line (scan_tokens_aux fuel rest line)
    | '.' :: rest => with_token .Dot line (scan_tokens_aux fuel rest line)
    | '-' :: rest => with_token .Minus line (scan_tokens_aux fuel rest line)
    | '+' :: rest => with_token .Plus line (scan_tokens_aux fuel rest line)
    | ';' :: rest => with_token .Semicolon line (scan_tokens_aux fuel rest line)
    | '*' :: rest => with_token .Star line (scan_tokens_aux fuel rest line)
    | '!' :: '=' :: rest => with_token .BangEqual line (scan_tokens_aux fuel rest line)
    | '!' :: rest => with_token .Bang line (scan_tokens_aux fuel rest line)
    | '=' :: '=' :: rest => with_token .EqualEqual line (scan_tokens_aux fuel rest line)
    | '=' :: rest => with_token .Equal line (scan_tokens_aux fuel rest line)
    | '<' :: '=' :: rest => with_token .LessEqual line (scan_tokens_aux fuel rest line)
    | '<' :: rest => with_token .Less line (scan_tokens_aux fuel rest line)
    | '>' :: '=' :: rest => with_token .GreaterEqual line (scan_tokens_aux fuel rest line)
    | '>' :: rest => with_token .Greater line (scan_tokens_aux fuel rest line)
    | '/' :: '/' :: rest =>
      scan_tokens_aux fuel (rest.dropWhile (fun ch => ch != '\n')) line
    | '/' :: rest => with_token .Slash line (scan_tokens_aux fuel rest line)
    | '"' :: rest =>
      match scan_string rest line with
      | .ok (lexeme, rem, line2) =>
        with_token (.String (String.mk lexeme)) line2 (scan_tokens_aux fuel rem line2)
      | .error e => .error e
    | ' ' :: rest => scan_tokens_aux fuel rest line
    | '\r' :: rest => scan_tokens_aux fuel rest line
    | '\t' :: rest => scan_tokens_aux fuel rest line
    | '\n' :: rest => scan_tokens_aux fuel rest (line + 1)
    | c :: rest =>
      if c.isDigit then
        let r := scan_number c rest
        with_token (.Number r.1) line (scan_tokens_aux fuel r.2 line)
      else if c.isAlpha || c = '_' then
        let ds := rest.takeWhile (fun ch => ch.isAlphanum || ch == '_')
        let rest2 := rest.dropWhile (fun ch => ch.isAlphanum || ch == '_')
        with_token (keyword_or_identifier (String.mk (c :: ds))) line
          (scan_tokens_aux fuel rest2 line)
      else .error ("unexpected character '" ++ String.mk [c] ++ "' on line " ++ toString line)

/-- After `Scanner::scan_tokens`: scan a whole source string.  Every
loop iteration consumes at least one character, so `length + 1` fuel
always suffices. -/
def scan_tokens (source : String) : Except String (List Token) :=
  scan_tokens_aux (source.length + 1) source.data 1

/-- After `Parser::peek_match`: test the next token without consuming. -/
def peek_match (ts : List Token) (pred : Token → Bool) : Bool :=
  match ts with
  | t :: _ => pred t
  | [] => false

/-- After `Parser::consume_match`: consume the next token only when it
matches; the flag reports whether it did. -/
def consume_match (ts : List Token) (pred : Token → Bool) : Bool × List Token :=
  match ts with
  | t :: rest => if pred t then (true, rest) else (false, ts)
  | [] => (false, ts)

/-- After `Parser::consume`: require the next token to have the given
kind. -/
def consume (ts : List Token) (kind : TokenKind) (message : String) :
    Except String (List Token) :=
  match ts with
  | t :: rest => if t.kind = kind then .ok rest else .error message
  | [] => .error message

mutual

/-- After `Parser::parse_declaration`: `var` declarations, else any
statement.  (This iteration of the parser has no `fun` branch.) -/
def parse_declaration : Nat → List Token → Except String (Stmt × List Token)
  | 0, _ => .error "out of fuel"
  | n + 1, ts =>
    if peek_match ts (fun t => t.kind == TokenKind.Var) then parse_var_declaration n ts
    else parse_statement n ts

/-- After `Parser::parse_statement`: dispatch on `for`, `if`, `print`,
`while`, `{`, else an expression statement.  (No `return` branch exists
in this iteration of the parser.) -/
def parse_statement : Nat → List Token → Except String (Stmt × List Token)
  | 0, _ => .error "out of fuel"
  | n + 1, ts =>
    if peek_match ts (fun t => t.kind == TokenKind.For) then parse_for_statement n ts
    else if peek_match ts (fun t => t.kind == TokenKind.If) then parse_if_statement n ts
    else if peek_match ts (fun t => t.kind == TokenKind.Print) then parse_print_statement n ts
    else if peek_match ts (fun t => t.kind == TokenKind.While) then parse_while_statement n ts
    else if peek_match ts (fun t => t.kind == TokenKind.LeftBrace) then do
      let r ← parse_block n ts
      pure (Stmt.Block r.1, r.2)
    else parse_expression_statement n ts

/-- After `Parser::parse_for_statement`, including its desugaring into
blocks and a `while` loop. -/
def parse_for_statement : Nat → List Token → Except String (Stmt × List Token)
  | 0, _ => .error "out of fuel"
  | n + 1, ts => do
    let ts1 ← consume ts.tail TokenKind.LeftParen "Expected '(' after 'for'."
    let initres ←
      (match ts1 with
        | [] => Except.error "Expected initializer after '('."
        | t :: _ =>
          match t.kind with
          | TokenKind.Semicolon => Except.ok ((none : Option Stmt), ts1)
          | TokenKind.Var => do
            let r ← parse_var_declaration n ts1
            Except.ok (some r.1, r.2)
          | _ => do
            let r ← parse_expression_statement n ts1
            Except.ok (some r.1, r.2))
    let condres ←
      (if peek_match initres.2 (fun t => t.kind != TokenKind.Semicolon) then do
        let r ← parse_expression n initres.2
        Except.ok (some r.1, r.2)
      else Except.ok ((none : Option Expr), initres.2))
    let ts4 ← consume condres.2 TokenKind.Semicolon "Expected ';' after loop condition."
    let incres ←
      (if peek_match ts4 (fun t => t.kind != TokenKind.Semicolon) then do
        let r ← parse_expression n ts4
        Except.ok (some r.1, r.2)
      else Except.ok ((none : Option Expr), ts4))
    let ts5 ← consume incres.2 TokenKind.RightParen "Expected ')' after for clauses."
    let bodyres ← parse_statement n ts5
    let body1 :=
      match incres.1 with
      | some expr => Stmt.Block [bodyres.1, Stmt.Expression expr]
      | none => bodyres.1
    let condition :=
      match condres.1 with
      | some c => c
      | none => Expr.Literal (Literal.Bool true)
    let body2 := Stmt.While condition body1
    let body3 :=
      match initres.1 with
      | some st => Stmt.Block [st, body2]
      | none => body2
    pure (body3, bodyres.2)

/-- After `Parser::parse_if_statement`.  The source only *peeks* at a
following `else` token and never consumes it before recursing into
`parse_statement`, so the `else` keyword is still the next token there;
this embedding preserves that behaviour. -/
def parse_if_statement : Nat → List Token → Except String (Stmt × List Token)
  | 0, _ => .error "out of fuel"
  | n + 1, ts => do
    let ts1 ← consume ts.tail TokenKind.LeftParen "Expected '(' after 'if'."
    let condres ← parse_expression n ts1
    let ts3 ← consume condres.2 TokenKind.RightParen "Expected ')' after condition."
    let thenres ← parse_statement n ts3
    if peek_match thenres.2 (fun t => t.kind == TokenKind.Else) then do
      let elseres ← parse_statement n thenres.2
      pure (Stmt.If condres.1 thenres.1 (some elseres.1), elseres.2)
    else
      pure (Stmt.If condres.1 thenres.1 none, thenres.2)

/-- After `Parser::parse_expression_statement` (the leading
`iter.peek().unwrap()` of the source panics on an empty stream; that is
modelled as an error). -/
def parse_expression_statement : Nat → List Token → Except String (Stmt × List Token)
  | 0, _ => .error "out of fuel"
  | n + 1, ts =>
    match ts with
    | [] => .error "panic: called unwrap on None"
    | t :: _ => do
      let line := t.line
      let r ← parse_expression n ts
      let cm := consume_match r.2 (fun tk => tk.kind == TokenKind.Semicolon)
      if cm.1 then pure (Stmt.Expression r.1, cm.2)
      else Except.error ("Expected ';' after value on line " ++ toString line)

/-- After `Parser::parse_while_statement`. -/
def parse_while_statement : Nat → List Token → Except String (Stmt × List Token)
  | 0, _ => .error "out of fuel"
  | n + 1, ts => do
    let ts1 ← consume ts.tail TokenKind.LeftParen "Expected '(' after 'while'."
    let condres ← parse_expression n ts1
    let ts3 ← consume condres.2 TokenKind.RightParen "Expected ')' after condition."
    let bodyres ← parse_statement n ts3
    pure (Stmt.While condres.1 bodyres.1, bodyres.2)

/-- After `Parser::parse_block` (the brace's line is remembered for the
error message). -/
def parse_block : Nat → List Token → Except String (List Stmt × List Token)
  | 0, _ => .error "out of fuel"
  | n + 1, ts =>
    match ts with
    | [] => .error "panic: called unwrap on None"
    | brace :: ts1 => parse_block_loop n brace.line [] ts1

/-- The declaration loop of `Parser::parse_block`. -/
def parse_block_loop : Nat → Nat → List Stmt → List Token →
    Except String (List Stmt × List Token)
  | 0, _, _, _ => .error "out of fuel"
  | n + 1, line, acc, ts =>
    if peek_match ts (fun t => t.kind != TokenKind.RightBrace) then do
      let r ← parse_declaration n ts
      parse_block_loop n line (acc ++ [r.1]) r.2
    else
      let cm := consume_match ts (fun t => t.kind == TokenKind.RightBrace)
      if cm.1 then .ok (acc, cm.2)
      else .error ("Expected '\x7d' to match '\x7b' on line " ++ toString line)

/-- After `Parser::parse_print_statement`. -/
def parse_print_statement : Nat → List Token → Except String (Stmt × List Token)
  | 0, _ => .error "out of fuel"
  | n + 1, ts =>
    match ts with
    | [] => .error "panic: called unwrap on None"
    | print_tok :: ts1 =>
      match ts1 with
      | [] => .error ("Expected value after 'print' on line " ++ toString print_tok.line)
      | value_tok :: _ => do
        let value_line := value_tok.line
        let r ← parse_expression n ts1
        let cm := consume_match r.2 (fun tk => tk.kind == TokenKind.Semicolon)
        if cm.1 then pure (Stmt.Print r.1, cm.2)
        else Except.error ("Expected ';' after value on line " ++ toString value_line)

/-- After `Parser::parse_var_declaration`. -/
def parse_var_declaration : Nat → List Token → Except String (Stmt × List Token)
  | 0, _ => .error "out of fuel"
  | n + 1, ts =>
    match ts with
    | [] => .error "panic: called unwrap on None"
    | var_tok :: ts1 =>
      match ts1 with
      | [] => .error "expected an identifier"
      | next :: ts2 =>
        match next.kind with
        | TokenKind.Identifier value =>
          let cm := consume_match ts2 (fun t => t.kind == TokenKind.Equal)
          if !cm.1 then
            let cm2 := consume_match ts2 (fun t => t.kind == TokenKind.Semicolon)
            if cm2.1 then .ok (Stmt.Var value none, cm2.2)
            else
              .error ("Expected ';' after variable declaration on line " ++ toString var_tok.line)
          else do
            let r ← parse_expression n cm.2
            let cm3 := consume_match r.2 (fun t => t.kind == TokenKind.Semicolon)
            if cm3.1 then pure (Stmt.Var value (some r.1), cm3.2)
            else
              Except.error
                ("Expected ';' after variable declaration on line " ++ toString var_tok.line)
        | _ =>
          .error ("Expected an expression, found " ++ token_kind_debug next.kind
            ++ " on line " ++ toString next.line)

/-- After `Parser::parse_expression`. -/
def parse_expression : Nat → List Token → Except String (Expr × List Token)
  | 0, _ => .error "out of fuel"
  | n + 1, ts => parse_assignment n ts

/-- After `Parser::parse_assignment`: parse a logical-or, then — iff an
`=` follows — re-interpret the left-hand side, accepting only a
`Variable` as assignment target. -/
def parse_assignment : Nat → List Token → Except String (Expr × List Token)
  | 0, _ => .error "out of fuel"
  | n + 1, ts => do
    let r ← parse_or n ts
    let cm := consume_match r.2 (fun t => t.kind == TokenKind.Equal)
    if cm.1 then
      match cm.2 with
      | [] => Except.error "panic: called unwrap on None"
      | t :: _ => do
        let line := t.line
        let v ← parse_assignment n cm.2
        match r.1 with
        | Expr.Variable name => pure (Expr.Assign name v.1, v.2)
        | _ => Except.error ("Invalid assignment target on line " ++ toString line)
    else pure r

/-- After `Parser::parse_or` (the right operand is parsed with
`parse_term`, as in the source). -/
def parse_or : Nat → List Token → Except String (Expr × List Token)
  | 0, _ => .error "out of fuel"
  | n + 1, ts => do
    let r ← parse_and n ts
    parse_or_loop n r.1 r.2

def parse_or_loop : Nat → Expr → List Token → Except String (Expr × List Token)
  | 0, _, _ => .error "out of fuel"
  | n + 1, expr, ts =>
    match ts with
    | t :: rest =>
      if t.kind == TokenKind.Or then do
        let r ← parse_term n rest
        parse_or_loop n (Expr.Logical expr t.kind r.1) r.2
      else pure (expr, ts)
    | [] => pure (expr, ts)

/-- After `Parser::parse_and` (the right operand is parsed with
`parse_term`, as in the source). -/
def parse_and : Nat → List Token → Except String (Expr × List Token)
  | 0, _ => .error "out of fuel"
  | n + 1, ts => do
    let r ← parse_equality n ts
    parse_and_loop n r.1 r.2

def parse_and_loop : Nat → Expr → List Token → Except String (Expr × List Token)
  | 0, _, _ => .error "out of fuel"
  | n + 1, expr, ts =>
    match ts with
    | t :: rest =>
      if t.kind == TokenKind.And then do
        let r ← parse_term n rest
        parse_and_loop n (Expr.Logical expr t.kind r.1) r.2
      else pure (expr, ts)
    | [] => pure (expr, ts)

/-- After `Parser::parse_equality`. -/
def parse_equality : Nat → List Token → Except String (Expr × List Token)
  | 0, _ => .error "out of fuel"
  | n + 1, ts => do
    let r ← parse_comparison n ts
    parse_equality_loop n r.1 r.2

def parse_equality_loop : Nat → Expr → List Token → Except String (Expr × List Token)
  | 0, _, _ => .error "out of fuel"
  | n + 1, expr, ts =>
    match ts with
    | t :: rest =>
      if t.kind == TokenKind.BangEqual || t.kind == TokenKind.EqualEqual then do
        let r ← parse_comparison n rest
        parse_equality_loop n (Expr.Binary expr t.kind r.1) r.2
      else pure (expr, ts)
    | [] => pure (expr, ts)

/-- After `Parser::parse_comparison`. -/
def parse_comparison : Nat → List Token → Except String (Expr × List Token)
  | 0, _ => .error "out of fuel"
  | n + 1, ts => do
    let r ← parse_term n ts
    parse_comparison_loop n r.1 r.2

def parse_comparison_loop : Nat → Expr → List Token → Except String (Expr × List Token)
  | 0, _, _ => .error "out of fuel"
  | n + 1, expr, ts =>
    match ts with
    | t :: rest =>
      if t.kind == TokenKind.Greater || t.kind == TokenKind.GreaterEqual
          || t.kind == TokenKind.Less || t.kind == TokenKind.LessEqual then do
        let r ← parse_term n rest
        parse_comparison_loop n (Expr.Binary expr t.kind r.1) r.2
      else pure (expr, ts)
    | [] => pure (expr, ts)

/-- After `Parser::parse_term`. -/
def parse_term : Nat → List Token → Except String (Expr × List Token)
  | 0, _ => .error "out of fuel"
  | n + 1, ts => do
    let r ← parse_factor n ts
    parse_term_loop n r.1 r.2

def parse_term_loop : Nat → Expr → List Token → Except String (Expr × List Token)
  | 0, _, _ => .error "out of fuel"
  | n + 1, expr, ts =>
    match ts with
    | t :: rest =>
      if t.kind == TokenKind.Minus || t.kind == TokenKind.Plus then do
        let r ← parse_factor n rest
        parse_term_loop n (Expr.Binary expr t.kind r.1) r.2
      else pure (expr, ts)
    | [] => pure (expr, ts)

/-- After `Parser::parse_factor`. -/
def parse_factor : Nat → List Token → Except String (Expr × List Token)
  | 0, _ => .error "out of fuel"
  | n + 1, ts => do
    let r ← parse_unary n ts
    parse_factor_loop n r.1 r.2

def parse_factor_loop : Nat → Expr → List Token → Except String (Expr × List Token)
  | 0, _, _ => .error "out of fuel"
  | n + 1, expr, ts =>
    match ts with
    | t :: rest =>
      if t.kind == TokenKind.Slash || t.kind == TokenKind.Star then do
        let r ← parse_unary n rest
        parse_factor_loop n (Expr.Binary expr t.kind r.1) r.2
      else pure (expr, ts)
    | [] => pure (expr, ts)

/-- After `Parser::parse_unary`. -/
def parse_unary : Nat → List Token → Except String (Expr × List Token)
  | 0, _ => .error "out of fuel"
  | n + 1, ts =>
    match ts with
    | t :: rest =>
      if t.kind == TokenKind.Bang || t.kind == TokenKind.Minus then do
        let r ← parse_unary n rest
        pure (Expr.Unary t.kind r.1, r.2)
      else parse_primary n ts
    | [] => parse_primary n ts

/-- After `Parser::parse_primary`.  (In the `(`-branch the source only
peeks at the closing `)` and never consumes it; that behaviour is kept.) -/
def parse_primary : Nat → List Token → Except String (Expr × List Token)
  | 0, _ => .error "out of fuel"
  | n + 1, ts =>
    match ts with
    | [] => .error "expected an expression"
    | next :: rest =>
      match next.kind with
      | TokenKind.False => pure (Expr.Literal (Literal.Bool false), rest)
      | TokenKind.True => pure (Expr.Literal (Literal.Bool true), rest)
      | TokenKind.Nil => pure (Expr.Literal Literal.Nil, rest)
      | TokenKind.Number value => pure (Expr.Literal (Literal.Number value), rest)
      | TokenKind.String value => pure (Expr.Literal (Literal.String value), rest)
      | TokenKind.LeftParen => do
        let r ← parse_expression n rest
        if peek_match r.2 (fun t => t.kind == TokenKind.RightParen) then
          pure (Expr.Grouping r.1, r.2)
        else Except.error ("Expected ')' to match '(' on line " ++ toString next.line)
      | TokenKind.Identifier value => pure (Expr.Variable value, rest)
      | _ =>
        .error ("Expected an expression, found " ++ token_kind_debug next.kind
          ++ " on line " ++ toString next.line)

end

/-- The top-level loop of `Parser::parse`: declarations until `Eof`. -/
def parse_aux : Nat → List Token → Except String (List Stmt)
  | 0, _ => .error "out of fuel"
  | n + 1, ts =>
    if peek_match ts (fun t => t.kind != TokenKind.Eof) then do
      let r ← parse_declaration n ts
      let stmts ← parse_aux n r.2
      pure (r.1 :: stmts)
    else pure []

/-- After `Parser::parse`, with explicit fuel. -/
def parse (n : Nat) (source : List Token) : Except String (List Stmt) :=
  parse_aux n source

/-- A fresh binding shadows: looking up the just-inserted name yields the
just-inserted index. -/
theorem Environment.get_insert (env : Environment) (name : String) (index : Nat) :
    (env.insert name index).get name = some index := by
  cases h : env.frames with
  | nil => simp [Environment.insert, Environment.get, h, lookup_frames, List.lookup]
  | cons f rest => simp [Environment.insert, Environment.get, h, lookup_frames, List.lookup]

/-- Overwriting the slot just past `l` in `l ++ [a]` replaces `a`. -/
theorem set_append_length {α : Type} (l : List α) (a b : α) :
    (l ++ [a]).set l.length b = l ++ [b] := by
  have h1 : l.length < (l ++ [a]).length := by simp
  apply List.ext_getElem?
  intro i
  rcases Nat.lt_trichotomy i l.length with h | h | h
  · rw [List.getElem?_set_ne (Nat.ne_of_gt h)]
    rw [List.getElem?_append, List.getElem?_append]
    simp [h]
  · subst h
    rw [List.getElem?_set_eq_of_lt _ h1, List.getElem?_concat_length]
  · rw [List.getElem?_set_ne (Nat.ne_of_lt h)]
    rw [List.getElem?_eq_none, List.getElem?_eq_none] <;> simp <;> omega

/-- The AST of the program `var x=0; fun f(){x=x+1;} f(); f();`, built
after the spec's grammar (the parser iteration in the repository cannot
parse `fun`). -/
def assign_test_program : List Stmt :=
  [ Stmt.Var "x" (some (Expr.Literal (Literal.Number 0))),
    Stmt.Function "f" [] [Stmt.Expression (Expr.Assign "x"
      (Expr.Binary (Expr.Variable "x") TokenKind.Plus (Expr.Literal (Literal.Number 1))))],
    Stmt.Expression (Expr.Call (Expr.Variable "f") []),
    Stmt.Expression (Expr.Call (Expr.Variable "f") []) ]

/-- C1, counterexample.  A block whose body raises a runtime error exits
with the enclosed (inner) environment still current: the `?` in
`visit_stmt_block` propagates the error before the restoring
`env.replace(old_env)` runs.  So the claim that the entry environment is
restored on *every* exit path fails on the error path. -/
theorem c1_block_error_env_not_restored :
    (visit_stmt 9 initial_state (Stmt.Block [Stmt.Expression (Expr.Variable "nope")])).2 =
      Outcome.err (RTError.error "Undefined variable nope.") ∧
    (visit_stmt 9 initial_state (Stmt.Block [Stmt.Expression (Expr.Variable "nope")])).1.env ≠
      initial_state.env :=
  ⟨rfl, by decide⟩

/-- C1, amended.  Blocks restore the entry environment on normal
completion, and function invocations restore it whenever they produce a
value — both on normal completion and on a caught `Return` unwind.  (On
a propagated runtime error, shown separately, neither restores it.) -/
theorem c1_env_restored_on_success :
    (∀ (n : Nat) (s : InterpState) (stmts : List Stmt) (s2 : InterpState),
        visit_stmt (n + 1) s (Stmt.Block stmts) = (s2, Outcome.ok ()) → s2.env = s.env) ∧
    (∀ (n : Nat) (s : InterpState) (callee : RuntimeValue) (args : List RuntimeValue)
        (s2 : InterpState) (v : RuntimeValue),
        invoke_function (n + 1) s callee args = (s2, Outcome.ok v) → s2.env = s.env) := by
  constructor
  · intro n s stmts s2 h
    simp only [visit_stmt] at h
    cases hm : visit_stmts n { s with env := s.env.enclose } stmts with
    | mk s3 o =>
      rw [hm] at h
      cases o with
      | ok u =>
        cases h
        rfl
      | err er =>
        cases h
  · intro n s callee args s2 v h
    cases callee with
    | Callable ast closure =>
      cases ast with
      | Function fname params body =>
        simp only [invoke_function] at h
        by_cases harity : params.length ≠ args.length
        · rw [if_pos harity] at h
          cases h
        · rw [if_neg harity] at h
          cases hm : visit_stmts n
              { (bind_params s closure.enclose (params.zip args)).1 with
                env := (bind_params s closure.enclose (params.zip args)).2 } body with
          | mk s3 o =>
            rw [hm] at h
            cases o with
            | ok u =>
              cases h
              rfl
            | err er =>
              cases er with
              | error msg => cases h
              | ret value =>
                cases h
                rfl
              | fuel => cases h
      | Block a => simp [invoke_function] at h
      | Expression a => simp [invoke_function] at h
      | If a b c => simp [invoke_function] at h
      | Print a => simp [invoke_function] at h
      | Return a => simp [invoke_function] at h
      | Var a b => simp [invoke_function] at h
      | While a b => simp [invoke_function] at h
    | Bool b => simp [invoke_function] at h
    | Nil => simp [invoke_function] at h
    | Number q => simp [invoke_function] at h
    | String str => simp [invoke_function] at h

/-- C1, witness for the amended theorem: a block that defines a variable,
and a call that allocates one, both hand back the entry environment. -/
theorem c1_env_restored_on_success_witness :
    (InterpState.mk ⟨[[("z", 0)]]⟩ [RuntimeValue.Nil] "").env =
      (InterpState.mk ⟨[[("z", 0)]]⟩ [] "").env ∧
    (InterpState.mk Environment.empty [RuntimeValue.Nil] "").env = initial_state.env :=
  ⟨c1_env_restored_on_success.1 8 (InterpState.mk ⟨[[("z", 0)]]⟩ [] "")
      [Stmt.Var "y" none] (InterpState.mk ⟨[[("z", 0)]]⟩ [RuntimeValue.Nil] "") rfl,
    c1_env_restored_on_success.2 8 initial_state
      (RuntimeValue.Callable (Stmt.Function "f" [] [Stmt.Var "y" none]) Environment.empty)
      [] (InterpState.mk Environment.empty [RuntimeValue.Nil] "") RuntimeValue.Nil rfl⟩

/-- C2.  Evaluating `Assign(name, value)` first evaluates `value`; the
resulting index lookup through the environment chain errors exactly when
`name` is absent, and otherwise overwrites the resolved arena slot with
the evaluated value, which is also the expression's result.  Because the
slot is shared, the spec's program `var x=0; fun f(){x=x+1;} f(); f();`
leaves `x` bound to 2. -/
theorem c2_assign_semantics :
    (∀ (n : Nat) (s s1 : InterpState) (name : String) (value : Expr) (v : RuntimeValue),
        visit_expr n s value = (s1, Outcome.ok v) →
        (s1.env.get name = none →
          visit_expr (n + 1) s (Expr.Assign name value) =
            (s1, Outcome.err (RTError.error ("Undefined variable " ++ name ++ ".")))) ∧
        (∀ idx : Nat, s1.env.get name = some idx → idx < s1.arena.length →
          visit_expr (n + 1) s (Expr.Assign name value) =
            ({ s1 with arena := s1.arena.set idx v }, Outcome.ok v))) ∧
    (visit_stmts 30 initial_state assign_test_program).2 = Outcome.ok () ∧
    (visit_expr 30 (visit_stmts 30 initial_state assign_test_program).1
        (Expr.Variable "x")).2 = Outcome.ok (RuntimeValue.Number 2) := by
  refine ⟨?_, rfl, rfl⟩
  intro n s s1 name value v heval
  constructor
  · intro hnone
    simp only [visit_expr, heval, hnone]
  · intro idx hsome hlt
    simp only [visit_expr, heval, hsome, update_var, if_pos hlt]

/-- C2, witness: assigning 5 to a bound `x` overwrites its slot and
returns 5. -/
theorem c2_assign_semantics_witness :
    visit_expr 3 (InterpState.mk ⟨[[("x", 0)]]⟩ [RuntimeValue.Number 0] "")
        (Expr.Assign "x" (Expr.Literal (Literal.Number 5))) =
      ({ InterpState.mk ⟨[[("x", 0)]]⟩ [RuntimeValue.Number 0] "" with
          arena := [RuntimeValue.Number 0].set 0 (RuntimeValue.Number 5) },
        Outcome.ok (RuntimeValue.Number 5)) :=
  (c2_assign_semantics.1 2 (InterpState.mk ⟨[[("x", 0)]]⟩ [RuntimeValue.Number 0] "")
      (InterpState.mk ⟨[[("x", 0)]]⟩ [RuntimeValue.Number 0] "") "x"
      (Expr.Literal (Literal.Number 5)) (RuntimeValue.Number 5) rfl).2 0 rfl (by decide)

/-- C3.  Executing a function declaration always succeeds, and leaves a
state whose environment binds the function's name to a fresh arena slot
holding the `Callable` itself; the callable's captured environment is
that same environment, so it contains the self-binding and recursive
calls through the name resolve to the callable. -/
theorem c3_function_decl_binds_self (n : Nat) (s : InterpState) (name : String)
    (params : List String) (body : List Stmt) :
    ∃ s2 : InterpState,
      visit_stmt (n + 1) s (Stmt.Function name params body) = (s2, Outcome.ok ()) ∧
      s2.env.get name = some s.arena.length ∧
      s2.arena[s.arena.length]? =
        some (RuntimeValue.Callable (Stmt.Function name params body) s2.env) := by
  refine ⟨{ env := s.env.insert name s.arena.length,
            arena := s.arena ++ [RuntimeValue.Callable (Stmt.Function name params body)
              (s.env.insert name s.arena.length)],
            stdout := s.stdout }, ?_, ?_, ?_⟩
  · have hlt : s.arena.length < (s.arena ++ [RuntimeValue.Nil]).length := by simp
    simp only [visit_stmt, define_in_env, update_var, if_pos hlt, set_append_length]
  · exact Environment.get_insert s.env name s.arena.length
  · exact List.getElem?_concat_length _ _

/-- Token sequence of `if (true) print 1; else print 2;`. -/
def c4_tokens : List Token :=
  [⟨.If, 1⟩, ⟨.LeftParen, 1⟩, ⟨.True, 1⟩, ⟨.RightParen, 1⟩, ⟨.Print, 1⟩,
   ⟨.Number 1, 1⟩, ⟨.Semicolon, 1⟩, ⟨.Else, 1⟩, ⟨.Print, 1⟩, ⟨.Number 2, 1⟩,
   ⟨.Semicolon, 1⟩, ⟨.Eof, 1⟩]

/-- C4.  On a well-formed `if (expression) statement else statement`
token sequence the parser does not produce an `If` node with the else
branch attached: `parse_if_statement` peeks at the `else` token without
consuming it, recurses into `parse_statement` with `else` still at the
front of the stream, and fails in `parse_primary`. -/
theorem c4_if_else_parse_fails :
    parse 99 c4_tokens = Except.error "Expected an expression, found Else on line 1" := rfl

/-- Token sequence of `return 1;`. -/
def c5_tokens : List Token :=
  [⟨.Return, 1⟩, ⟨.Number 1, 1⟩, ⟨.Semicolon, 1⟩, ⟨.Eof, 1⟩]

/-- C5.  The parser has no branch for `return` statements:
`parse_statement` falls through to an expression statement and the
`return` keyword reaches `parse_primary`, which rejects it. -/
theorem c5_return_parse_fails :
    parse 99 c5_tokens = Except.error "Expected an expression, found Return on line 1" := rfl

/-- The error message `Scanner::parse_string` produces at end of input,
parameterised by the line number it names. -/
def unterminated_string_message (line : Nat) : String :=
  "end of line while scanning string literal on line " ++ toString line

/-- C6, counterexample.  The unterminated string literal `"a⏎b` is
opened on line 1, but the scanner's error names line 2: the line counter
is bumped for each newline consumed inside the literal before the error
is raised. -/
theorem c6_unterminated_line_counterexample :
    scan_tokens (String.mk ['"', 'a', '\n', 'b']) =
      Except.error (unterminated_string_message 2) ∧
    unterminated_string_message 2 ≠ unterminated_string_message 1 :=
  ⟨rfl, by decide⟩

/-- Scanning an unterminated literal consumes every remaining character,
bumping the line counter at each newline, and fails with the message
naming the final value of the counter. -/
theorem scan_string_unterminated (cs : List Char) (line : Nat) (h : '"' ∉ cs) :
    scan_string cs line = .error (unterminated_string_message (line + cs.count '\n')) := by
  induction cs generalizing line with
  | nil => simp [scan_string, unterminated_string_message]
  | cons c rest ih =>
    have hc : ¬(c = '"') := fun hcq => h (by simp [hcq])
    have h2 : '"' ∉ rest := fun hr => h (List.mem_cons_of_mem c hr)
    have hcount : (if c = '\n' then line + 1 else line) + rest.count '\n' =
        line + (c :: rest).count '\n' := by
      by_cases hn : c = '\n' <;> simp [hn, List.count_cons] <;> omega
    have hrw := ih (if c = '\n' then line + 1 else line) h2
    simp only [scan_string, if_neg hc, hrw, hcount]

/-- C6, amended.  For a source text that opens a string literal with `"`
and never closes it, the scanner fails with an error naming the line
reached at end of input: the literal's starting line plus the number of
newlines inside it (equal to the starting line only when the literal
spans a single line). -/
theorem scan_tokens_aux_quote (fuel : Nat) (rest : List Char) (line : Nat) :
    scan_tokens_aux (fuel + 1) ('"' :: rest) line =
      match scan_string rest line with
      | .ok (lexeme, rem, line2) =>
        with_token (.String (String.mk lexeme)) line2 (scan_tokens_aux fuel rem line2)
      | .error e => .error e := rfl

/-- C6, amended.  For a source text that opens a string literal with `"`
and never closes it, the scanner fails with an error naming the line
reached at end of input: the literal's starting line plus the number of
newlines inside it (equal to the starting line only when the literal
spans a single line). -/
theorem c6_unterminated_string_names_final_line (rest : List Char) (h : '"' ∉ rest) :
    scan_tokens (String.mk ('"' :: rest)) =
      Except.error (unterminated_string_message (1 + rest.count '\n')) := by
  have hlen : (String.mk ('"' :: rest)).length = rest.length + 1 := by
    simp [String.length]
  simp only [scan_tokens, hlen]
  rw [scan_tokens_aux_quote, scan_string_unterminated rest 1 h]

/-- C6, witness for the amended theorem: a one-line unterminated literal
is reported on its starting line. -/
theorem c6_unterminated_string_names_final_line_witness :
    scan_tokens (String.mk ['"', 'x']) =
      Except.error (unterminated_string_message (1 + List.count '\n' ['x'])) :=
  c6_unterminated_string_names_final_line ['x'] (by decide)

/-- C7.  The truthiness function is total over `RuntimeValue` (it is a
Lean function into `Bool`), and maps `Nil` to false, `Bool(b)` to `b`,
numbers equal to 0.0 (in particular `Number(0.0)`) to false, every other
number to true, every string to true and every callable to true. -/
theorem c7_truthiness_table :
    is_truthy RuntimeValue.Nil = false ∧
    (∀ b : Bool, is_truthy (RuntimeValue.Bool b) = b) ∧
    is_truthy (RuntimeValue.Number 0) = false ∧
    (∀ q : F64, F64.beq q 0 = true → is_truthy (RuntimeValue.Number q) = false) ∧
    (∀ q : F64, F64.beq q 0 = false → is_truthy (RuntimeValue.Number q) = true) ∧
    (∀ str : String, is_truthy (RuntimeValue.String str) = true) ∧
    (∀ (ast : Stmt) (closure : Environment),
        is_truthy (RuntimeValue.Callable ast closure) = true) := by
  refine ⟨rfl, fun b => rfl, rfl, fun q hq => ?_, fun q hq => ?_, fun str => rfl,
    fun ast closure => rfl⟩
  · simp [is_truthy, hq]
  · simp [is_truthy, hq]

/-- C7, witness: a nonzero number is truthy and an unnormalised zero is
falsy. -/
theorem c7_truthiness_table_witness :
    is_truthy (RuntimeValue.Number 2) = true ∧
    is_truthy (RuntimeValue.Number ⟨0, 5⟩) = false :=
  ⟨c7_truthiness_table.2.2.2.2.1 2 rfl, c7_truthiness_table.2.2.2.1 ⟨0, 5⟩ rfl⟩

/-- C8.  A `Logical` expression evaluates its left operand first; with
`or` and a truthy left value, or `and` and a falsy one, the result is
the left value and the state after the left operand — the right operand
is never evaluated, so none of its side effects occur; otherwise the
whole expression behaves exactly as evaluating the right operand from
that state. -/
theorem c8_logical_short_circuit (n : Nat) (s s1 : InterpState) (left right : Expr)
    (op : TokenKind) (v : RuntimeValue)
    (hleft : visit_expr n s left = (s1, Outcome.ok v))
    (hop : op = TokenKind.Or ∨ op = TokenKind.And) :
    visit_expr (n + 1) s (Expr.Logical left op right) =
      if (op = TokenKind.Or ∧ is_truthy v = true) ∨ (op = TokenKind.And ∧ is_truthy v = false)
      then (s1, Outcome.ok v)
      else visit_expr n s1 right := by
  rcases hop with h | h <;> subst h <;>
    simp only [visit_expr, hleft] <;> cases hv : is_truthy v <;> simp [hv]

/-- C8, witness: `true or (x = nil)` short-circuits — the assignment on
the right is not evaluated and the state is unchanged. -/
theorem c8_logical_short_circuit_witness :
    visit_expr 2 initial_state
      (Expr.Logical (Expr.Literal (Literal.Bool true)) TokenKind.Or
        (Expr.Assign "x" (Expr.Literal Literal.Nil))) =
      (initial_state, Outcome.ok (RuntimeValue.Bool true)) := by
  have h := c8_logical_short_circuit 1 initial_state initial_state
    (Expr.Literal (Literal.Bool true)) (Expr.Assign "x" (Expr.Literal Literal.Nil))
    TokenKind.Or (RuntimeValue.Bool true) rfl (Or.inl rfl)
  rw [if_pos (Or.inl ⟨rfl, rfl⟩)] at h
  exact h

/-- C9.  Redeclaring `var name = e` when `name` already resolves to an
allocated slot `old_idx` allocates a fresh slot at the end of the arena
and rebinds `name` to it in a new current environment; the old slot's
index and value are untouched, any environment captured earlier still
resolves `name` to `old_idx` (environments are persistent values), and
an assignment through the new binding (an `update_var` at the new index)
leaves the old slot's value unchanged. -/
theorem c9_var_redeclaration_fresh_slot (n : Nat) (s s1 : InterpState) (name : String)
    (e : Expr) (v : RuntimeValue) (old_idx : Nat)
    (heval : visit_expr n s e = (s1, Outcome.ok v))
    (hbound : s1.env.get name = some old_idx)
    (halloc : old_idx < s1.arena.length) :
    visit_stmt (n + 1) s (Stmt.Var name (some e)) =
      ({ env := s1.env.insert name s1.arena.length,
         arena := s1.arena ++ [v], stdout := s1.stdout }, Outcome.ok ()) ∧
    (s1.env.insert name s1.arena.length).get name = some s1.arena.length ∧
    old_idx ≠ s1.arena.length ∧
    (s1.arena ++ [v])[old_idx]? = s1.arena[old_idx]? ∧
    (∀ w : RuntimeValue,
      ((update_var
          { env := s1.env.insert name s1.arena.length,
            arena := s1.arena ++ [v], stdout := s1.stdout }
          s1.arena.length w).1).arena[old_idx]? = s1.arena[old_idx]?) := by
  have happ : (s1.arena ++ [v])[old_idx]? = s1.arena[old_idx]? := by
    rw [List.getElem?_append]
    simp [halloc]
  refine ⟨?_, Environment.get_insert s1.env name s1.arena.length, Nat.ne_of_lt halloc,
    happ, ?_⟩
  · simp only [visit_stmt, heval, define_in_env]
  · intro w
    have hlt : s1.arena.length < (s1.arena ++ [v]).length := by simp
    simp only [update_var, if_pos hlt]
    rw [List.getElem?_set_ne (Nat.ne_of_gt halloc)]
    exact happ

/-- C9, witness: redeclaring `x` (bound at slot 0 with value 1) with
initializer 2 allocates slot 1 and leaves slot 0 intact. -/
theorem c9_var_redeclaration_fresh_slot_witness :
    visit_stmt 2 (InterpState.mk ⟨[[("x", 0)]]⟩ [RuntimeValue.Number 1] "")
        (Stmt.Var "x" (some (Expr.Literal (Literal.Number 2)))) =
      ({ env := Environment.insert ⟨[[("x", 0)]]⟩ "x" [RuntimeValue.Number 1].length,
         arena := [RuntimeValue.Number 1] ++ [RuntimeValue.Number 2],
         stdout := "" }, Outcome.ok ()) :=
  (c9_var_redeclaration_fresh_slot 1 (InterpState.mk ⟨[[("x", 0)]]⟩ [RuntimeValue.Number 1] "")
      (InterpState.mk ⟨[[("x", 0)]]⟩ [RuntimeValue.Number 1] "") "x"
      (Expr.Literal (Literal.Number 2)) (RuntimeValue.Number 2) 0 rfl rfl (by decide)).1

/-- The AST of `print 1; nope;` — output is captured, then a runtime
error occurs. -/
def c10_program : List Stmt :=
  [Stmt.Print (Expr.Literal (Literal.Number 1)), Stmt.Expression (Expr.Variable "nope")]

/-- C10.  When executing the statements fails, `interpret` returns only
the rendered error: the `Ok` branch carrying the captured stdout is
never taken, so the caller receives no partial output string. -/
theorem c10_interpret_error_no_output (n : Nat) (s0 s1 : InterpState)
    (statements : List Stmt) (er : RTError)
    (h : visit_stmts n s0 statements = (s1, Outcome.err er)) :
    interpret n s0 statements = Except.error (error_message er) ∧
    ∀ out : String, interpret n s0 statements ≠ Except.ok out := by
  have h1 : interpret n s0 statements = Except.error (error_message er) := by
    unfold interpret
    rw [h]
  exact ⟨h1, fun out hout => by rw [h1] at hout; cases hout⟩

/-- C10, witness: `print 1; nope;` captures `1\n` into the intermediate
state, yet the library result is only the error. -/
theorem c10_interpret_error_no_output_witness :
    interpret 9 initial_state c10_program = Except.error "Undefined variable nope." ∧
    ∀ out : String, interpret 9 initial_state c10_program ≠ Except.ok out :=
  c10_interpret_error_no_output 9 initial_state
    (InterpState.mk Environment.empty [] "1\n") c10_program
    (RTError.error "Undefined variable nope.") rfl
